import Mathlib

/-!
Shallow embedding of `core/artwork/reader_resized.go` (navidrome fork).

External collaborators (image decoders, the format-specific encoders, the
`imaging` resize library, and the original-artwork store) are modelled as
parameters: an `Env` record of functions for the pipeline, and
fetch outcomes for the facade.  Decoded pixel data is opaque (a `Nat`
handle); only bounds, detected format and consumed byte count matter to
the control flow being verified.  Go `float64` arithmetic in
`shouldEncodeLossless` and `qualityBySize` is modelled by exact rationals
(`ℚ`); within the value ranges these functions see, the float comparison
against the integer thresholds 8.0 / 3.0 and the linear interpolation
agree with the exact rational computation.  Go `int` is modelled by `ℤ`
(no overflow occurs in the ranges produced by image decoding), and byte
buffers by `List ℕ` of byte values.
-/

namespace ReaderResized

/-- Configuration snapshot read from `conf.Server` (read-only during a call):
the selected cover-art output format and the quality bounds. -/
structure Config where
  coverArtFormat : String
  coverArtMinQuality : ℤ
  coverArtMaxQuality : ℤ
deriving DecidableEq, Repr

/-- The closed enumeration of output formats the encoder dispatch knows
(cases of the two `switch` statements in `resizeImage`). -/
def coverArtFormats : List String := ["png", "jpeg", "webp", "avif", "jxl"]

/-- Go `image.Rectangle`: min and max corners. -/
structure Rect where
  minX : ℤ
  minY : ℤ
  maxX : ℤ
  maxY : ℤ
deriving DecidableEq, Repr

/-- Go `Rectangle.Dx()`. -/
def Rect.dx (r : Rect) : ℤ := r.maxX - r.minX

/-- Go `Rectangle.Dy()`. -/
def Rect.dy (r : Rect) : ℤ := r.maxY - r.minY

/-- Go's `int(f)` conversion on a `float64`: truncation toward zero. -/
def truncQ (q : ℚ) : ℤ := if 0 ≤ q then ⌊q⌋ else ⌈q⌉

/-- `qualityBySize(n, m)` from the source: minimum quality below 300,
maximum quality once `n >= m`, otherwise linear interpolation between the
configured bounds, truncated to an integer. -/
def qualityBySize (cfg : Config) (n m : ℤ) : ℤ :=
  if n < 300 then cfg.coverArtMinQuality
  else if n ≥ m then cfg.coverArtMaxQuality
  else
    let top : ℚ := ((n : ℚ) - 300)
    let bottom : ℚ := ((m : ℚ) - 300)
    let r : ℚ := top / bottom
    let minQ : ℚ := (cfg.coverArtMinQuality : ℚ)
    let maxQ : ℚ := (cfg.coverArtMaxQuality : ℚ)
    truncQ (minQ + r * (maxQ - minQ))

/-- Cache key of the resized reader, `resizedArtworkReader.Key`:
`"{originalKey}.{size}.square"` when square, else
`"{originalKey}.{size}.{coverArtFormat}"`. -/
def resizedKey (cacheKey : String) (size : ℤ) (square : Bool)
    (coverArtFormat : String) : String :=
  let baseKey := cacheKey ++ "." ++ toString size
  if square then baseKey ++ ".square"
  else baseKey ++ "." ++ coverArtFormat

/-- Byte at index `i` of a header buffer (indices used are always in
bounds, guarded by length checks mirroring the Go slicing). -/
def byteAt (h : List ℕ) (i : ℕ) : ℕ := h.getD i 0

/-- `binary.LittleEndian.Uint32(header[o : o+4])`. -/
def le32 (h : List ℕ) (o : ℕ) : ℕ :=
  byteAt h o + 256 * byteAt h (o + 1) + 65536 * byteAt h (o + 2) +
    16777216 * byteAt h (o + 3)

/-- Bytes of the ASCII tag `RIFF`. -/
def riffTag : List ℕ := [82, 73, 70, 70]

/-- Bytes of the ASCII tag `WEBP`. -/
def webpTag : List ℕ := [87, 69, 66, 80]

/-- Bytes of the ASCII tag `VP8L` (lossless sub-format). -/
def vp8lTag : List ℕ := [86, 80, 56, 76]

/-- Bytes of the ASCII tag `VP8 ` (lossy sub-format, note trailing space). -/
def vp8Tag : List ℕ := [86, 80, 56, 32]

/-- The chunk-walking loop inside `shouldEncodeLossless`: starting at
`offset` (initially 12, right after the RIFF/WEBP signature), read
`(4-byte tag, 4-byte little-endian length)` chunk headers; `VP8L` means
natively lossless, `VP8 ` stops the walk, anything else advances past the
chunk (lengths padded to even).  Returns the final `isNativeLossless`. -/
def webpChunkWalk (header : List ℕ) (offset : ℕ) : Bool :=
  if h : offset + 8 ≤ header.length then
    let chunkID := (header.drop offset).take 4
    if chunkID = vp8lTag then true
    else if chunkID = vp8Tag then false
    else
      let chunkLen := le32 header (offset + 4)
      let advance := 8 + chunkLen + (if chunkLen % 2 ≠ 0 then 1 else 0)
      webpChunkWalk header (offset + advance)
  else false
termination_by header.length - offset
decreasing_by omega

/-- `shouldEncodeLossless(format, originalBytes, bounds, header)` from the
source.  The Go `return false` for jpeg is hoisted in front of the
`png` check; the branches are exclusive on `format`, so the behavior is
identical. -/
def shouldEncodeLossless (format : String) (originalBytes : ℕ)
    (bounds : Rect) (header : List ℕ) : Bool :=
  let totalPixels : ℤ := bounds.dx * bounds.dy
  if totalPixels = 0 then false
  else
    let bpp : ℚ := ((originalBytes : ℚ) * 8) / (totalPixels : ℚ)
    if format = "jpeg" then false
    else
      let isNativeLossless : Bool :=
        if format = "png" then true
        else if format = "webp" ∧ 12 ≤ header.length ∧
            header.take 4 = riffTag ∧ (header.drop 8).take 4 = webpTag then
          webpChunkWalk header 12
        else false
      if isNativeLossless ∧ bpp < 8 then true
      else if bpp < 3 then true
      else false

/-- Outcome of `image.Decode` through the `countingReader`: the opaque
decoded pixel data, the detected format name, the number of bytes the
decoder consumed (`countingReader.n`), and `original.Bounds()`. -/
structure Decoded where
  img : ℕ
  format : String
  bytesConsumed : ℕ
  bounds : Rect
deriving DecidableEq, Repr

/-- One call into an external encoder, recording which encoder the
dispatch in `resizeImage` selected and with what options. -/
inductive EncodeCall where
  | jxlLossless (img : ℕ)
  | pngLossless (img : ℕ)
  | webpLossless (img : ℕ)
  | webpLossy (img : ℕ) (q : ℤ)
  | jxlLossy (img : ℕ) (q : ℤ)
  | avifLossy (img : ℕ) (q : ℤ)
  | jpegLossy (img : ℕ) (q : ℤ)
deriving DecidableEq, Repr

/-- External collaborators of the pipeline: `imaging.Fit`,
`imaging.OverlayCenter` (composition onto the square canvas), and the
format-specific encoders.  `encode` returns the bytes written into the
buffer and the error value of the encode call (the buffer may be
partially written when an error is reported). -/
structure Env where
  fit : ℕ → ℤ → ℤ → ℕ
  overlayCenter : ℤ → ℕ → ℕ
  encode : EncodeCall → List ℕ × Option String

/-- The `resized` image value computed in `resizeImage`: the original when
it already fits, else `imaging.Fit`; then, when square cropping is
requested and the bounds are non-square, composited centered onto a
`size × size` canvas. -/
def resizedOf (env : Env) (d : Decoded) (size : ℤ) (square : Bool) : ℕ :=
  let originalSize := max d.bounds.maxX d.bounds.maxY
  let resized := if originalSize ≤ size then d.img else env.fit d.img size size
  if square ∧ d.bounds.dx ≠ d.bounds.dy then env.overlayCenter size resized
  else resized

/-- The encoder call `resizeImage` dispatches to: lossless mode routed by
configured format (jxl and png natively, everything else substituted by
lossless webp), lossy mode routed by configured format at
`qualityBySize(size, min(size, originalSize))` (png and jpeg fall to the
jpeg encoder). -/
def chosenEncode (cfg : Config) (env : Env) (d : Decoded)
    (header : List ℕ) (size : ℤ) (square : Bool) : EncodeCall :=
  let resized := resizedOf env d size square
  if shouldEncodeLossless d.format d.bytesConsumed d.bounds header then
    match cfg.coverArtFormat with
    | "jxl" => .jxlLossless resized
    | "png" => .pngLossless resized
    | _ => .webpLossless resized
  else
    let originalSize := max d.bounds.maxX d.bounds.maxY
    let q := qualityBySize cfg size (min size originalSize)
    match cfg.coverArtFormat with
    | "webp" => .webpLossy resized q
    | "jxl" => .jxlLossy resized q
    | "avif" => .avifLossy resized q
    | _ => .jpegLossy resized q

/-- `resizeImage(reader, size, square)`.  The decode outcome (an error, or
the decoded image with its format and consumed byte count) and the peeked
header prefix are inputs, since decoding is external.  Result triple
mirrors `(io.Reader, int, error)`: `none` as first component is the no-op
signal (use the original). -/
def resizeImage (cfg : Config) (env : Env) (decoded : Except String Decoded)
    (header : List ℕ) (size : ℤ) (square : Bool) :
    Option (List ℕ) × ℤ × Option String :=
  match decoded with
  | .error e => (none, 0, some e)
  | .ok d =>
    let originalBytes := d.bytesConsumed
    let imgSrcSameFormatAsServer := d.format = cfg.coverArtFormat
    let originalSize := max d.bounds.maxX d.bounds.maxY
    if imgSrcSameFormatAsServer ∧ originalSize ≤ size then
      (none, originalSize, none)
    else
      let res := env.encode (chosenEncode cfg env d header size square)
      if imgSrcSameFormatAsServer ∧ originalBytes ≤ res.1.length then
        (none, originalSize, none)
      else
        (some res.1, originalSize, res.2)

/-- Outcomes of the two `a.a.Get(ctx, artID, 0, false)` calls the facade
can make: the initial fetch of the original and the fallback re-fetch. -/
structure FacadeEnv where
  get1 : Except String (List ℕ)
  get2 : Except String (List ℕ)

/-- `resizedArtworkReader.Reader`: fetch the original, run the pipeline;
on a pipeline error or the no-op signal, re-fetch and return the original
bytes (with the discriminator `""`), failing only if that fetch fails;
otherwise return the resized bytes and `"{artID}@{size}"`. -/
def facadeReader (env : FacadeEnv)
    (pipeline : List ℕ → Option (List ℕ) × ℤ × Option String)
    (artID : String) (size : ℤ) : Except String (List ℕ × String) :=
  match env.get1 with
  | .error e => .error e
  | .ok orig =>
    let res := pipeline orig
    if res.2.2.isSome ∨ res.1 = none then
      match env.get2 with
      | .error e2 => .error e2
      | .ok orig2 => .ok (orig2, "")
    else
      .ok (res.1.getD [], artID ++ "@" ++ toString size)

/-! ### Concrete sample data for closed instances -/

/-- A minimal RIFF/WEBP header whose first chunk tag is the lossy `VP8 `
sub-format tag: signature (RIFF, little-endian size 40, WEBP) followed by
a `VP8 ` chunk header of length 4. -/
def lossyWebpHeader : List ℕ :=
  riffTag ++ [40, 0, 0, 0] ++ webpTag ++ vp8Tag ++ [4, 0, 0, 0]

/-- Sample environment whose encoder writes five bytes into the buffer
and then reports an error. -/
def failingEncodeEnv : Env where
  fit := fun _ _ _ => 0
  overlayCenter := fun _ i => i
  encode := fun _ => ([9, 9, 9, 9, 9], some "encode failed")

/-- Sample environment whose encoder writes three bytes and succeeds. -/
def okEncodeEnv : Env where
  fit := fun _ _ _ => 0
  overlayCenter := fun _ i => i
  encode := fun _ => ([1, 2, 3], none)

/-- Sample facade environment: both fetches of the original succeed with
the same three bytes. -/
def okFacadeEnv : FacadeEnv where
  get1 := .ok [1, 2, 3]
  get2 := .ok [1, 2, 3]

/-! ### Helper lemmas -/

/-- The chunk walk stops, still not lossless, when the first chunk tag
(right after the 12-byte signature) is the lossy `VP8 ` tag. -/
theorem webpChunkWalk_vp8_first (header : List ℕ)
    (h : (header.drop 12).take 4 = vp8Tag) : webpChunkWalk header 12 = false := by
  rw [webpChunkWalk]
  split
  · simp [h, vp8Tag, vp8lTag]
  · rfl

/-- Truncation toward zero is monotone. -/
theorem truncQ_mono {a b : ℚ} (h : a ≤ b) : truncQ a ≤ truncQ b := by
  unfold truncQ
  split <;> split
  · exact Int.floor_le_floor h
  · exact absurd (le_trans (by assumption) h) (by assumption)
  · calc ⌈a⌉ ≤ 0 := Int.ceil_le.mpr (by exact_mod_cast le_of_not_le (by assumption))
      _ ≤ ⌊b⌋ := Int.floor_nonneg.mpr (by assumption)
  · exact Int.ceil_le_ceil h

/-- Appending to a fixed string on the left is injective. -/
theorem string_append_left_cancel {s a b : String} (h : s ++ a = s ++ b) :
    a = b := by
  have hd : (s ++ a).data = (s ++ b).data := congrArg String.data h
  simp only [String.data_append] at hd
  cases a; cases b
  exact congrArg String.mk (List.append_cancel_left hd)

/-! ### Claim theorems -/

/-- Claim C7, counterexample: with quality bounds 70/95,
`qualityBySize(250, 250)` is 70, the configured minimum quality, not the
configured maximum quality 95 — the `n < 300` branch is checked before
the `n >= m` branch. -/
theorem C7_counterexample :
    qualityBySize ⟨"webp", 70, 95⟩ 250 250 = 70 ∧ (70 : ℤ) ≠ 95 := by
  constructor
  · decide
  · decide

/-- Claim C7, amended: for every requestedSize of at least 300,
`qualityBySize(requestedSize, requestedSize)` is the configured maximum
quality (below 300, the minimum-quality branch wins instead). -/
theorem C7_amended_maxQuality (cfg : Config) (n : ℤ) (h : 300 ≤ n) :
    qualityBySize cfg n n = cfg.coverArtMaxQuality := by
  unfold qualityBySize
  rw [if_neg (by omega), if_pos le_rfl]

/-- Witness for C7_amended_maxQuality at requestedSize 300. -/
theorem C7_amended_maxQuality_witness :
    qualityBySize ⟨"webp", 70, 95⟩ 300 300 = 95 :=
  C7_amended_maxQuality ⟨"webp", 70, 95⟩ 300 (by decide)

/-- Claim C8: for a fixed effectiveBound above 300 and quality bounds with
min at most max, `qualityBySize` is monotone non-decreasing in the
requested size over `[300, effectiveBound)`, where on that interval it is
the truncated linear interpolation between the bounds. -/
theorem C8_quality_monotone (cfg : Config) (m n₁ n₂ : ℤ)
    (hq : cfg.coverArtMinQuality ≤ cfg.coverArtMaxQuality)
    (hm : 300 < m) (h1 : 300 ≤ n₁) (h12 : n₁ ≤ n₂) (h2 : n₂ < m) :
    qualityBySize cfg n₁ m ≤ qualityBySize cfg n₂ m ∧
    qualityBySize cfg n₁ m =
      truncQ ((cfg.coverArtMinQuality : ℚ) +
        ((n₁ : ℚ) - 300) / ((m : ℚ) - 300) *
          ((cfg.coverArtMaxQuality : ℚ) - (cfg.coverArtMinQuality : ℚ))) := by
  have hb : (0 : ℚ) < (m : ℚ) - 300 := by
    have : (300 : ℚ) < (m : ℚ) := by exact_mod_cast hm
    linarith
  constructor
  · unfold qualityBySize
    rw [if_neg (by omega), if_neg (by omega), if_neg (by omega), if_neg (by omega)]
    apply truncQ_mono
    have hΔ : (0 : ℚ) ≤ (cfg.coverArtMaxQuality : ℚ) - (cfg.coverArtMinQuality : ℚ) := by
      have : (cfg.coverArtMinQuality : ℚ) ≤ (cfg.coverArtMaxQuality : ℚ) := by
        exact_mod_cast hq
      linarith
    have hr : ((n₁ : ℚ) - 300) / ((m : ℚ) - 300) ≤
        ((n₂ : ℚ) - 300) / ((m : ℚ) - 300) := by
      rw [div_le_div_iff_of_pos_right hb]
      have : (n₁ : ℚ) ≤ (n₂ : ℚ) := by exact_mod_cast h12
      linarith
    have := mul_le_mul_of_nonneg_right hr hΔ
    linarith
  · unfold qualityBySize
    rw [if_neg (by omega), if_neg (by omega)]

/-- Witness for C8_quality_monotone: bounds 70/95, effectiveBound 500,
requested sizes 350 and 400. -/
theorem C8_quality_monotone_witness :
    qualityBySize ⟨"webp", 70, 95⟩ 350 500 ≤ qualityBySize ⟨"webp", 70, 95⟩ 400 500 :=
  (C8_quality_monotone ⟨"webp", 70, 95⟩ 500 350 400 (by decide) (by decide)
    (by decide) (by decide) (by decide)).1

/-- Claim C10: `qualityBySize` is total — every integer input pair falls
in exactly one of the three branches (the guards below are mutually
exclusive and exhaustive), and in the interpolation branch the
denominator `m - 300` is strictly positive, so no division by zero
occurs. -/
theorem C10_quality_total (cfg : Config) (n m : ℤ) :
    (n < 300 ∧ qualityBySize cfg n m = cfg.coverArtMinQuality) ∨
    (300 ≤ n ∧ m ≤ n ∧ qualityBySize cfg n m = cfg.coverArtMaxQuality) ∨
    (300 ≤ n ∧ n < m ∧ 0 < m - 300 ∧
      qualityBySize cfg n m =
        truncQ ((cfg.coverArtMinQuality : ℚ) +
          ((n : ℚ) - 300) / ((m : ℚ) - 300) *
            ((cfg.coverArtMaxQuality : ℚ) - (cfg.coverArtMinQuality : ℚ)))) := by
  by_cases h1 : n < 300
  · exact Or.inl ⟨h1, by unfold qualityBySize; rw [if_pos h1]⟩
  · by_cases h2 : m ≤ n
    · refine Or.inr (Or.inl ⟨by omega, h2, ?_⟩)
      unfold qualityBySize
      rw [if_neg h1, if_pos h2]
    · refine Or.inr (Or.inr ⟨by omega, by omega, by omega, ?_⟩)
      unfold qualityBySize
      rw [if_neg h1, if_neg (by omega)]

/-- Claim C9: the cache key is exactly `"{originalKey}.{size}.square"`
when square and `"{originalKey}.{size}.{format}"` otherwise (so it is a
function of exactly those inputs), and for a configured format drawn from
the closed format enumeration the square and non-square keys always
differ. -/
theorem C9_cache_key (k : String) (size : ℤ) (fmt : String) :
    resizedKey k size true fmt = k ++ "." ++ toString size ++ ".square" ∧
    resizedKey k size false fmt = k ++ "." ++ toString size ++ "." ++ fmt ∧
    (fmt ∈ coverArtFormats → resizedKey k size true fmt ≠ resizedKey k size false fmt) := by
  refine ⟨rfl, rfl, fun hmem heq => ?_⟩
  unfold resizedKey at heq
  simp only [if_pos, if_neg] at heq
  rw [show (k ++ "." ++ toString size ++ ".square") =
        (k ++ "." ++ toString size ++ ".") ++ "square" from by
      simp [String.append_assoc],
    show (k ++ "." ++ toString size ++ "." ++ fmt) =
        (k ++ "." ++ toString size ++ ".") ++ fmt from by
      simp [String.append_assoc]] at heq
  have : "square" = fmt := string_append_left_cancel heq
  subst this
  simp [coverArtFormats] at hmem

/-- Witness for C9_cache_key: key "al-1" with size 300 and format webp. -/
theorem C9_cache_key_witness :
    resizedKey "al-1" 300 true "webp" = "al-1.300.square" ∧
    resizedKey "al-1" 300 true "webp" ≠ resizedKey "al-1" 300 false "webp" :=
  ⟨(C9_cache_key "al-1" 300 "webp").1,
   (C9_cache_key "al-1" 300 "webp").2.2 (by decide)⟩

/-- Claim C5: the lossless suitability detector returns false for jpeg
input regardless of the other arguments, returns true for png input with
nonzero total pixel count whenever bitsPerPixel (originalBytes·8 divided
by the pixel count) is below 8, and returns false whenever the total
pixel count is zero. -/
theorem C5_lossless_detector (fmt : String) (originalBytes : ℕ)
    (bounds : Rect) (header : List ℕ) :
    (fmt = "jpeg" → shouldEncodeLossless fmt originalBytes bounds header = false) ∧
    (fmt = "png" → bounds.dx * bounds.dy ≠ 0 →
      ((originalBytes : ℚ) * 8) / ((bounds.dx * bounds.dy : ℤ) : ℚ) < 8 →
      shouldEncodeLossless fmt originalBytes bounds header = true) ∧
    (bounds.dx * bounds.dy = 0 →
      shouldEncodeLossless fmt originalBytes bounds header = false) := by
  refine ⟨?_, ?_, ?_⟩
  · intro hf
    subst hf
    unfold shouldEncodeLossless
    by_cases h0 : bounds.dx * bounds.dy = (0 : ℤ)
    · rw [if_pos h0]
    · rw [if_neg h0, if_pos rfl]
  · intro hf h0 h8
    subst hf
    unfold shouldEncodeLossless
    rw [if_neg h0]
    simp only [show ("png" = "jpeg") = False from by simp, if_false,
      if_neg (by simp : ¬ ("png" : String) = "jpeg")]
    push_cast at h8
    simp [h8]
  · intro h0
    unfold shouldEncodeLossless
    rw [if_pos h0]

/-- Witness for C5_lossless_detector: a 10 by 10 png consuming 5 bytes
(bitsPerPixel 0.4) is encoded losslessly. -/
theorem C5_lossless_detector_witness :
    shouldEncodeLossless "png" 5 ⟨0, 0, 10, 10⟩ [] = true :=
  (C5_lossless_detector "png" 5 ⟨0, 0, 10, 10⟩ []).2.1 rfl (by decide)
    (by norm_num [Rect.dx, Rect.dy])

/-- Claim C6, counterexample: a webp input whose header is a valid
RIFF/WEBP signature with first chunk tag `VP8 ` (the lossy sub-format),
with nonzero pixel bounds, is still reported lossless when
bitsPerPixel is below 3 (here 1 byte for 100 pixels): the sparse-image
fallback `bpp < 3.0` fires even though the source is lossy webp, so the
claim's unconditional "returns false" is wrong. -/
theorem C6_counterexample :
    lossyWebpHeader.take 4 = riffTag ∧
    (lossyWebpHeader.drop 8).take 4 = webpTag ∧
    (lossyWebpHeader.drop 12).take 4 = vp8Tag ∧
    12 ≤ lossyWebpHeader.length ∧
    Rect.dx ⟨0, 0, 10, 10⟩ * Rect.dy ⟨0, 0, 10, 10⟩ ≠ 0 ∧
    shouldEncodeLossless "webp" 1 ⟨0, 0, 10, 10⟩ lossyWebpHeader = true := by
  refine ⟨by decide, by decide, by decide, by decide, by decide, ?_⟩
  have hwalk := webpChunkWalk_vp8_first lossyWebpHeader (by decide)
  unfold shouldEncodeLossless
  rw [if_neg (by decide : ¬ (Rect.dx ⟨0, 0, 10, 10⟩ * Rect.dy ⟨0, 0, 10, 10⟩ = 0))]
  simp only [hwalk]
  norm_num [Rect.dx, Rect.dy]
  decide

/-- Claim C6, amended: for a header starting with a valid RIFF/WEBP
signature whose first chunk tag is the lossy `VP8 ` tag, webp input is
never treated as natively lossless, so the detector returns false
whenever bitsPerPixel is not below 3 (the sparse-image fallback
`bpp < 3.0` can still report lossless, which the original claim
overlooked). -/
theorem C6_amended_lossy_webp (originalBytes : ℕ) (bounds : Rect)
    (header : List ℕ)
    (htag : (header.drop 12).take 4 = vp8Tag)
    (hbpp : ¬ ((originalBytes : ℚ) * 8) / ((bounds.dx * bounds.dy : ℤ) : ℚ) < 3) :
    shouldEncodeLossless "webp" originalBytes bounds header = false := by
  have hwalk := webpChunkWalk_vp8_first header htag
  unfold shouldEncodeLossless
  by_cases h0 : bounds.dx * bounds.dy = (0 : ℤ)
  · rw [if_pos h0]
  · rw [if_neg h0]
    simp only [hwalk]
    push_cast at hbpp
    simp
    exact le_of_not_lt hbpp

/-- Witness for C6_amended_lossy_webp: 100 bytes for 100 pixels
(bitsPerPixel 8) of lossy webp is not encoded losslessly. -/
theorem C6_amended_lossy_webp_witness :
    shouldEncodeLossless "webp" 100 ⟨0, 0, 10, 10⟩ lossyWebpHeader = false :=
  C6_amended_lossy_webp 100 ⟨0, 0, 10, 10⟩ lossyWebpHeader (by decide)
    (by norm_num [Rect.dx, Rect.dy])

/-- Claim C1: when the decoded image's detected format equals the
configured output format and its largest dimension (max of width and
height; decoder bounds are anchored at the origin) is at most the
requested size, `resizeImage` emits the no-op signal with the original's
largest dimension and no error.  The environment `env` (resize and
encode collaborators) is universally quantified and absent from the
right-hand side, so no encoder is ever consulted. -/
theorem C1_skip_condition (cfg : Config) (env : Env) (d : Decoded)
    (header : List ℕ) (size : ℤ) (square : Bool)
    (hminX : d.bounds.minX = 0) (hminY : d.bounds.minY = 0)
    (hfmt : d.format = cfg.coverArtFormat)
    (hsize : max d.bounds.dx d.bounds.dy ≤ size) :
    resizeImage cfg env (.ok d) header size square =
      (none, max d.bounds.dx d.bounds.dy, none) := by
  have hdx : d.bounds.dx = d.bounds.maxX := by unfold Rect.dx; omega
  have hdy : d.bounds.dy = d.bounds.maxY := by unfold Rect.dy; omega
  rw [hdx, hdy] at hsize ⊢
  unfold resizeImage
  simp only []
  rw [if_pos ⟨hfmt, hsize⟩]

/-- Witness for C1_skip_condition: a 500 by 500 png requested at size 800
with configured format png is a no-op (spec scenario). -/
theorem C1_skip_condition_witness :
    resizeImage ⟨"png", 70, 95⟩ okEncodeEnv
      (.ok ⟨0, "png", 51200, ⟨0, 0, 500, 500⟩⟩) [] 800 false =
      (none, 500, none) := by
  have h := C1_skip_condition ⟨"png", 70, 95⟩ okEncodeEnv
    ⟨0, "png", 51200, ⟨0, 0, 500, 500⟩⟩ [] 800 false rfl rfl rfl (by decide)
  simpa [Rect.dx, Rect.dy] using h

/-- Claim C2: for a same-format input, if the bytes the chosen encoder
writes are at least as many as the bytes consumed decoding the original,
`resizeImage` discards the buffer and emits the no-op signal with the
original's largest dimension (when the skip condition already holds, the
encoder is not even consulted and the result is the same no-op). -/
theorem C2_regression_guard (cfg : Config) (env : Env) (d : Decoded)
    (header : List ℕ) (size : ℤ) (square : Bool)
    (hfmt : d.format = cfg.coverArtFormat)
    (hlen : d.bytesConsumed ≤
      (env.encode (chosenEncode cfg env d header size square)).1.length) :
    resizeImage cfg env (.ok d) header size square =
      (none, max d.bounds.maxX d.bounds.maxY, none) := by
  unfold resizeImage
  simp only []
  by_cases hs : max d.bounds.maxX d.bounds.maxY ≤ size
  · rw [if_pos ⟨hfmt, hs⟩]
  · rw [if_neg (fun hc => hs hc.2), if_pos ⟨hfmt, hlen⟩]

/-- Witness for C2_regression_guard: a 10 by 10 webp consuming 2 bytes,
re-encoded by an encoder writing 3 bytes, requested at size 5. -/
theorem C2_regression_guard_witness :
    resizeImage ⟨"webp", 70, 95⟩ okEncodeEnv
      (.ok ⟨0, "webp", 2, ⟨0, 0, 10, 10⟩⟩) [] 5 false = (none, 10, none) := by
  have h := C2_regression_guard ⟨"webp", 70, 95⟩ okEncodeEnv
    ⟨0, "webp", 2, ⟨0, 0, 10, 10⟩⟩ [] 5 false rfl (by decide)
  simpa [max_self] using h

/-- Claim C3, counterexample: configured format png, a 10 by 10 png
source consuming 5 bytes, requested at size 4 (so the skip condition does
not hold), and an encoder that writes 5 bytes and reports an error.  The
encoder reports an error, yet `resizeImage` returns the no-op signal with
no error: the same-format regression guard fires first and silently
drops both the buffer and the error, contradicting the claim. -/
theorem C3_counterexample :
    (failingEncodeEnv.encode (chosenEncode ⟨"png", 70, 95⟩ failingEncodeEnv
        ⟨0, "png", 5, ⟨0, 0, 10, 10⟩⟩ [] 4 false)).2 = some "encode failed" ∧
    resizeImage ⟨"png", 70, 95⟩ failingEncodeEnv
      (.ok ⟨0, "png", 5, ⟨0, 0, 10, 10⟩⟩) [] 4 false = (none, 10, none) := by
  constructor
  · rfl
  · unfold resizeImage
    simp only []
    rw [if_neg (by decide), if_pos (by constructor <;> decide)]
    norm_num

/-- Claim C3, amended: when the chosen encoder call reports an error,
`resizeImage` returns the partially written buffer, the original's
largest dimension and that error — provided neither same-format early
exit applies: the skip condition (same format and original fits) and the
regression guard (same format and buffer at least originalBytes long),
which returns the no-op signal and silently discards the error. -/
theorem C3_amended_encode_error (cfg : Config) (env : Env) (d : Decoded)
    (header : List ℕ) (size : ℤ) (square : Bool) (e : String)
    (herr : (env.encode (chosenEncode cfg env d header size square)).2 = some e)
    (hskip : ¬ (d.format = cfg.coverArtFormat ∧
      max d.bounds.maxX d.bounds.maxY ≤ size))
    (hguard : ¬ (d.format = cfg.coverArtFormat ∧ d.bytesConsumed ≤
      (env.encode (chosenEncode cfg env d header size square)).1.length)) :
    resizeImage cfg env (.ok d) header size square =
      (some (env.encode (chosenEncode cfg env d header size square)).1,
        max d.bounds.maxX d.bounds.maxY, some e) := by
  unfold resizeImage
  simp only []
  rw [if_neg hskip, if_neg hguard, herr]

/-- Witness for C3_amended_encode_error: a png source re-encoded to webp
by an encoder that writes five bytes and fails; the buffer and the error
are both returned. -/
theorem C3_amended_encode_error_witness :
    resizeImage ⟨"webp", 70, 95⟩ failingEncodeEnv
      (.ok ⟨0, "png", 9, ⟨0, 0, 10, 10⟩⟩) [] 4 false =
      (some [9, 9, 9, 9, 9], 10, some "encode failed") := by
  have h := C3_amended_encode_error ⟨"webp", 70, 95⟩ failingEncodeEnv
    ⟨0, "png", 9, ⟨0, 0, 10, 10⟩⟩ [] 4 false "encode failed" rfl
    (by decide) (by decide)
  simpa using h

/-- Claim C4: on a pipeline error or the no-op signal, the facade
re-fetches and returns exactly the original bytes (with the empty
discriminator), failing only if that re-fetch fails; and any error the
whole call returns is a fetch error (from the initial fetch or the
re-fetch), never a pipeline error by itself. -/
theorem C4_facade_fallback (env : FacadeEnv)
    (pipeline : List ℕ → Option (List ℕ) × ℤ × Option String)
    (artID : String) (size : ℤ) :
    (∀ orig, env.get1 = .ok orig →
      ((pipeline orig).2.2.isSome ∨ (pipeline orig).1 = none) →
      facadeReader env pipeline artID size =
        env.get2.map (fun b => (b, ""))) ∧
    (∀ e, facadeReader env pipeline artID size = .error e →
      env.get1 = .error e ∨ env.get2 = .error e) := by
  constructor
  · intro orig h1 hcond
    unfold facadeReader
    rw [h1]
    simp only []
    rw [if_pos hcond]
    cases env.get2 <;> simp [Except.map]
  · intro e he
    unfold facadeReader at he
    cases hg1 : env.get1 with
    | error e1 =>
      rw [hg1] at he
      simp only [] at he
      cases he
      exact Or.inl rfl
    | ok orig =>
      rw [hg1] at he
      simp only [] at he
      by_cases hc : (pipeline orig).2.2.isSome ∨ (pipeline orig).1 = none
      · rw [if_pos hc] at he
        cases hg2 : env.get2 with
        | error e2 =>
          rw [hg2] at he
          cases he
          exact Or.inr rfl
        | ok b =>
          rw [hg2] at he
          cases he
      · rw [if_neg hc] at he
        cases he

/-- Witness for C4_facade_fallback: both fetches succeed with bytes
`[1, 2, 3]` and the pipeline signals no-op; the facade returns the
original bytes with the empty discriminator. -/
theorem C4_facade_fallback_witness :
    facadeReader okFacadeEnv (fun _ => (none, 7, none)) "al-1" 300 =
      .ok ([1, 2, 3], "") := by
  have h := (C4_facade_fallback okFacadeEnv (fun _ => (none, 7, none))
    "al-1" 300).1 [1, 2, 3] rfl (Or.inr rfl)
  simpa [okFacadeEnv, Except.map] using h

end ReaderResized
